import Mathlib

/-!
Verification of the loop3 traffic-test protocol engine
(src/ziti-fabric-test/subcmd/loop3/protocol.go) and the edge-router
config command (src/unnamed/part_000).

The Go code is shallowly embedded: byte streams are `List Nat` (each
element a byte value), machine integers are `Nat`/`Int` with explicit
`% 2 ^ 32` where 32-bit overflow matters, `io.Writer`/`io.Reader`
behaviour is an explicit state, and fallible operations return `Except`.
-/

namespace Loop3

/-- The fixed magic marker, `MagicHeader` in protocol.go line 49:
`[]byte{0xCA, 0xFE, 0xF0, 0x0D}`. -/
def magicHeader : List Nat := [0xCA, 0xFE, 0xF0, 0x0D]

/-- `binary.LittleEndian.PutUint32(out, uint32(v))` (protocol.go line 328):
the four little-endian bytes of `v mod 2 ^ 32`. -/
def putUint32LE (v : Nat) : List Nat :=
  [v % 256, v / 256 % 256, v / 65536 % 256, v / 16777216 % 256]

/-- Unsigned little-endian decoding of four bytes. -/
def leUInt32 (b0 b1 b2 b3 : Nat) : Nat :=
  b0 + 256 * b1 + 65536 * b2 + 16777216 * b3

/-- Signed (two's-complement) little-endian decoding of four bytes, as
performed by `binary.Read(buf, binary.LittleEndian, &length)` into an
`int32` variable (protocol.go lines 360-361). -/
def leInt32 (b0 b1 b2 b3 : Nat) : Int :=
  if leUInt32 b0 b1 b2 b3 < 2 ^ 31 then (leUInt32 b0 b1 b2 b3 : Int)
  else (leUInt32 b0 b1 b2 b3 : Int) - 2 ^ 32

/-- Errors produced by the framing codec (protocol.go lines 263-397).
Constructors mirror the error values the Go functions return; the read
side's `unexpectedEOF` stands for the error returned by `io.ReadFull`
when the stream ends before the requested count. -/
inductive FrameError
  | ioError
  | shortMagicWrite
  | shortLengthWrite
  | shortDataWrite
  | badHeader (got : List Nat)
  | unexpectedEOF
  | shortLengthRead
  | negativeLength
  deriving DecidableEq, Repr

/-- `io.ReadFull(p.peer, data)` with `len(data) = n` over a stream of
remaining bytes: fails when fewer than `n` bytes remain, otherwise
yields the `n` bytes read and the rest of the stream. -/
def readFull (n : Nat) (stream : List Nat) : Except FrameError (List Nat × List Nat) :=
  if stream.length < n then Except.error FrameError.unexpectedEOF
  else Except.ok (stream.take n, stream.drop n)

/-- `protocol.rxMagicHeader` (protocol.go lines 368-381): read
`len(MagicHeader)` bytes and require them equal to the marker. -/
def rxMagicHeader (stream : List Nat) : Except FrameError (List Nat) :=
  match readFull magicHeader.length stream with
  | Except.error e => Except.error e
  | Except.ok (data, rest) =>
    if magicHeader = data then Except.ok rest
    else Except.error (FrameError.badHeader data)

/-- `protocol.rxLength` (protocol.go lines 350-366): read 4 bytes and
decode them with `binary.Read` into an `int32`, returned as a Go `int`
(sign-preserving, hence `Int` here). -/
def rxLength (stream : List Nat) : Except FrameError (Int × List Nat) :=
  match readFull 4 stream with
  | Except.error e => Except.error e
  | Except.ok (data, rest) =>
    match data with
    | [b0, b1, b2, b3] => Except.ok (leInt32 b0 b1 b2 b3, rest)
    | _ => Except.error FrameError.shortLengthRead

/-- `protocol.rxPb` (protocol.go lines 285-313): magic header, then
length, then exactly `length` payload bytes via `io.ReadFull`.  A
negative decoded length makes `make([]byte, length)` panic in Go;
the panic (re-raised by the deferred `recover`) is modelled as the
`negativeLength` error — in either rendering no decoded message is
returned.  The payload bytes are returned for the caller's
`proto.Unmarshal` (the opaque message schema). -/
def rxPb (stream : List Nat) : Except FrameError (List Nat × List Nat) :=
  match rxMagicHeader stream with
  | Except.error e => Except.error e
  | Except.ok s1 =>
    match rxLength s1 with
    | Except.error e => Except.error e
    | Except.ok (len, s2) =>
      if len < 0 then Except.error FrameError.negativeLength
      else readFull len.toNat s2

lemma readFull_short (n : Nat) (stream : List Nat) (h : stream.length < n) :
    readFull n stream = Except.error FrameError.unexpectedEOF := by
  simp [readFull, h]

lemma readFull_exact (pre rest : List Nat) :
    readFull pre.length (pre ++ rest) = Except.ok (pre, rest) := by
  simp [readFull]

lemma readFull_four (b0 b1 b2 b3 : Nat) (rest : List Nat) :
    readFull 4 (b0 :: b1 :: b2 :: b3 :: rest) = Except.ok ([b0, b1, b2, b3], rest) :=
  readFull_exact [b0, b1, b2, b3] rest

lemma rxLength_cons (b0 b1 b2 b3 : Nat) (rest : List Nat) :
    rxLength (b0 :: b1 :: b2 :: b3 :: rest) = Except.ok (leInt32 b0 b1 b2 b3, rest) := by
  simp [rxLength, readFull_four]

/-- C4 (corrected): the claim fails as stated — four bytes with the high
bit of the top byte set decode to a negative length, not to their
unsigned value.  `rxLength` on `FF FF FF FF` returns `-1`, while the
unsigned little-endian decoding is `4294967295`. -/
theorem rxLength_unsigned_counterexample :
    rxLength [255, 255, 255, 255] = Except.ok (-1, []) ∧
    leUInt32 255 255 255 255 = 4294967295 ∧ (-1 : Int) ≠ (4294967295 : Int) := by
  refine ⟨?_, by decide, by decide⟩
  rw [rxLength_cons]
  have h : leInt32 255 255 255 255 = -1 := by decide
  rw [h]

/-- C4 (amended): the 4-byte length field is decoded as a SIGNED
little-endian 32-bit integer.  For field values below `2 ^ 31` the
result coincides with the unsigned little-endian decoding claimed by
the spec; for values in `[2 ^ 31, 2 ^ 32)` the returned length is the
unsigned value minus `2 ^ 32`, i.e. negative. -/
theorem rxLength_le_decoding :
    (∀ b0 b1 b2 b3 : Nat, ∀ rest : List Nat, leUInt32 b0 b1 b2 b3 < 2 ^ 31 →
        rxLength (b0 :: b1 :: b2 :: b3 :: rest) =
          Except.ok ((leUInt32 b0 b1 b2 b3 : Int), rest)) ∧
    (∀ b0 b1 b2 b3 : Nat, ∀ rest : List Nat, 2 ^ 31 ≤ leUInt32 b0 b1 b2 b3 →
        rxLength (b0 :: b1 :: b2 :: b3 :: rest) =
          Except.ok ((leUInt32 b0 b1 b2 b3 : Int) - 2 ^ 32, rest)) := by
  constructor
  · intro b0 b1 b2 b3 rest h
    rw [rxLength_cons, leInt32, if_pos h]
  · intro b0 b1 b2 b3 rest h
    rw [rxLength_cons, leInt32, if_neg (by omega)]

/-- Witness for `rxLength_le_decoding`: the frame length `1` decodes to `1`. -/
theorem rxLength_le_decoding_witness :
    leUInt32 1 0 0 0 < 2 ^ 31 ∧
    rxLength [1, 0, 0, 0, 9] = Except.ok ((leUInt32 1 0 0 0 : Int), [9]) :=
  ⟨by decide, rxLength_le_decoding.1 1 0 0 0 [9] (by decide)⟩

lemma leUInt32_putUint32LE (v : Nat) (h : v < 2 ^ 32) :
    leUInt32 (v % 256) (v / 256 % 256) (v / 65536 % 256) (v / 16777216 % 256) = v := by
  unfold leUInt32
  omega

lemma magicHeader_length : magicHeader.length = 4 := rfl

lemma rxMagicHeader_ok (rest : List Nat) :
    rxMagicHeader (magicHeader ++ rest) = Except.ok rest := by
  rw [rxMagicHeader, readFull_exact]
  dsimp only
  rw [if_pos rfl]

lemma rxMagicHeader_bad (b0 b1 b2 b3 : Nat) (rest : List Nat)
    (h : [b0, b1, b2, b3] ≠ magicHeader) :
    rxMagicHeader (b0 :: b1 :: b2 :: b3 :: rest) =
      Except.error (FrameError.badHeader [b0, b1, b2, b3]) := by
  rw [rxMagicHeader, magicHeader_length, readFull_four]
  exact if_neg fun hh => h hh.symm

lemma rxMagicHeader_short (stream : List Nat) (h : stream.length < 4) :
    rxMagicHeader stream = Except.error FrameError.unexpectedEOF := by
  rw [rxMagicHeader, magicHeader_length, readFull_short 4 stream h]

lemma rxLength_putUint32LE (v : Nat) (rest : List Nat) (h : v < 2 ^ 31) :
    rxLength (putUint32LE v ++ rest) = Except.ok ((v : Int), rest) := by
  have hc : putUint32LE v ++ rest =
      v % 256 :: v / 256 % 256 :: v / 65536 % 256 :: v / 16777216 % 256 :: rest := rfl
  rw [hc, rxLength_cons]
  have hu : leUInt32 (v % 256) (v / 256 % 256) (v / 65536 % 256) (v / 16777216 % 256) = v :=
    leUInt32_putUint32LE v (by omega)
  rw [leInt32, hu, if_pos h]

/-- C6 (confirmed): `rxPb` first reads 4 bytes and fails with a
bad-header error whenever they differ from the magic marker (or with an
EOF error when fewer than 4 bytes remain); when the marker matches it
reads the 4-byte length and then exactly that many payload bytes,
failing with an unexpected-EOF error on truncation, and on success
returns exactly the `len` payload bytes.  `Except.error` results carry
no decoded message by construction. -/
theorem rxPb_framing :
    (∀ b0 b1 b2 b3 : Nat, ∀ rest : List Nat, [b0, b1, b2, b3] ≠ magicHeader →
        rxPb (b0 :: b1 :: b2 :: b3 :: rest) =
          Except.error (FrameError.badHeader [b0, b1, b2, b3])) ∧
    (∀ stream : List Nat, stream.length < 4 →
        rxPb stream = Except.error FrameError.unexpectedEOF) ∧
    (∀ len : Nat, ∀ payload tail : List Nat, payload.length = len → len < 2 ^ 31 →
        rxPb (magicHeader ++ putUint32LE len ++ payload ++ tail) =
          Except.ok (payload, tail)) ∧
    (∀ len : Nat, ∀ s2 : List Nat, s2.length < len → len < 2 ^ 31 →
        rxPb (magicHeader ++ putUint32LE len ++ s2) =
          Except.error FrameError.unexpectedEOF) := by
  refine ⟨?_, ?_, ?_, ?_⟩
  · intro b0 b1 b2 b3 rest h
    rw [rxPb, rxMagicHeader_bad b0 b1 b2 b3 rest h]
  · intro stream h
    rw [rxPb, rxMagicHeader_short stream h]
  · intro len payload tail hlen hbound
    rw [List.append_assoc, List.append_assoc, rxPb, rxMagicHeader_ok]
    dsimp only
    rw [rxLength_putUint32LE len (payload ++ tail) hbound]
    dsimp only
    rw [if_neg (not_lt.mpr (Int.natCast_nonneg len)), Int.toNat_natCast, ← hlen,
      readFull_exact]
  · intro len s2 hshort hbound
    rw [List.append_assoc, rxPb, rxMagicHeader_ok]
    dsimp only
    rw [rxLength_putUint32LE len s2 hbound]
    dsimp only
    rw [if_neg (not_lt.mpr (Int.natCast_nonneg len)), Int.toNat_natCast,
      readFull_short len s2 hshort]

/-- Witness for `rxPb_framing`: a wrong first byte yields a bad-header
error on a concrete stream. -/
theorem rxPb_framing_witness :
    [0, 0xFE, 0xF0, 0x0D] ≠ magicHeader ∧
    rxPb [0, 0xFE, 0xF0, 0x0D, 1, 0, 0, 0, 7] =
      Except.error (FrameError.badHeader [0, 0xFE, 0xF0, 0x0D]) :=
  ⟨by decide, rxPb_framing.1 0 0xFE 0xF0 0x0D [1, 0, 0, 0, 7] (by decide)⟩

/-- One possible behaviour of a single `io.Writer.Write` call: an I/O
error, or acceptance of `n` bytes (capped at the requested count).  Go's
writer contract allows a nil-error return with fewer bytes written — the
"partial write" the code defends against. -/
inductive WriteRes
  | ioErr
  | wrote (n : Nat)
  deriving DecidableEq, Repr

/-- State of the shared connection's write side: a schedule of behaviours
for the upcoming `Write` calls (an exhausted schedule means full writes),
and the bytes that actually reached the stream. -/
structure TxState where
  sched : List WriteRes
  out : List Nat
  deriving DecidableEq, Repr

/-- `w.Write(data)`: returns (error?, bytes written, next state). -/
def write1 (data : List Nat) (s : TxState) : Option FrameError × Nat × TxState :=
  match s.sched with
  | [] => (none, data.length, { s with out := s.out ++ data })
  | WriteRes.ioErr :: rest => (some FrameError.ioError, 0, { s with sched := rest })
  | WriteRes.wrote n :: rest =>
    (none, min n data.length, { sched := rest, out := s.out ++ data.take (min n data.length) })

/-- `protocol.txMagicHeader` (protocol.go lines 315-324): write the
marker, fail on error or when fewer than `len(MagicHeader)` bytes were
written. -/
def txMagicHeader (s : TxState) : Except FrameError TxState :=
  match write1 magicHeader s with
  | (some e, _, _) => Except.error e
  | (none, n, s1) =>
    if n ≠ magicHeader.length then Except.error FrameError.shortMagicWrite else Except.ok s1

/-- `protocol.txLength` (protocol.go lines 326-337): write the 4
little-endian bytes of `uint32(length)`, fail on error or short write. -/
def txLength (len : Nat) (s : TxState) : Except FrameError TxState :=
  match write1 (putUint32LE len) s with
  | (some e, _, _) => Except.error e
  | (none, n, s1) =>
    if n ≠ 4 then Except.error FrameError.shortLengthWrite else Except.ok s1

/-- `protocol.txPb` (protocol.go lines 263-283) after `proto.Marshal`
(the opaque schema encoder) has produced `data`: magic header, then
length, then the payload bytes, each guarded against errors and short
writes. -/
def txPb (data : List Nat) (s : TxState) : Except FrameError TxState :=
  match txMagicHeader s with
  | Except.error e => Except.error e
  | Except.ok s1 =>
    match txLength data.length s1 with
    | Except.error e => Except.error e
    | Except.ok s2 =>
      match write1 data s2 with
      | (some e, _, _) => Except.error e
      | (none, n, s3) =>
        if n ≠ data.length then Except.error FrameError.shortDataWrite else Except.ok s3

lemma putUint32LE_length (v : Nat) : (putUint32LE v).length = 4 := rfl

lemma txMagicHeader_ok_out (s s1 : TxState) (h : txMagicHeader s = Except.ok s1) :
    s1.out = s.out ++ magicHeader := by
  rw [txMagicHeader] at h
  match hs : s.sched with
  | [] =>
    rw [write1, hs] at h
    dsimp only at h
    rw [if_neg (by decide)] at h
    cases h
    rfl
  | WriteRes.ioErr :: rest =>
    rw [write1, hs] at h
    exact absurd h (by simp)
  | WriteRes.wrote n :: rest =>
    rw [write1, hs] at h
    dsimp only at h
    by_cases hn : min n magicHeader.length ≠ magicHeader.length
    · rw [if_pos hn] at h
      exact absurd h (by simp)
    · rw [if_neg hn] at h
      cases h
      simp only [not_not] at hn
      have h4 : magicHeader.length ≤ min n magicHeader.length := Nat.le_of_eq hn.symm
      simp [List.take_of_length_le h4]

lemma txLength_ok_out (len : Nat) (s s1 : TxState) (h : txLength len s = Except.ok s1) :
    s1.out = s.out ++ putUint32LE len := by
  rw [txLength] at h
  match hs : s.sched with
  | [] =>
    rw [write1, hs] at h
    dsimp only at h
    rw [putUint32LE_length, if_neg (by decide)] at h
    cases h
    rfl
  | WriteRes.ioErr :: rest =>
    rw [write1, hs] at h
    exact absurd h (by simp)
  | WriteRes.wrote n :: rest =>
    rw [write1, hs] at h
    dsimp only at h
    rw [putUint32LE_length] at h
    by_cases hn : min n 4 ≠ 4
    · rw [if_pos hn] at h
      exact absurd h (by simp)
    · rw [if_neg hn] at h
      cases h
      simp only [not_not] at hn
      have h4 : (putUint32LE len).length ≤ min n 4 := by rw [hn, putUint32LE_length]
      simp [List.take_of_length_le h4]

lemma write1_full_out (data : List Nat) (s : TxState) (n : Nat) (s3 : TxState)
    (h : write1 data s = (none, n, s3)) (hn : n = data.length) :
    s3.out = s.out ++ data := by
  match hs : s.sched with
  | [] =>
    rw [write1, hs] at h
    injection h with h1 h2
    injection h2 with h3 h4
    rw [← h4]
  | WriteRes.ioErr :: rest =>
    rw [write1, hs] at h
    injection h with h1 h2
    exact absurd h1 (by simp)
  | WriteRes.wrote m :: rest =>
    rw [write1, hs] at h
    injection h with h1 h2
    injection h2 with h3 h4
    rw [← h4]
    have hlen : data.length ≤ min m data.length := by omega
    simp [List.take_of_length_le hlen]

lemma txPb_ok_out (data : List Nat) (s s1 : TxState) (h : txPb data s = Except.ok s1) :
    s1.out = s.out ++ magicHeader ++ putUint32LE data.length ++ data := by
  rw [txPb] at h
  match hm : txMagicHeader s with
  | Except.error e =>
    rw [hm] at h
    exact absurd h (by simp)
  | Except.ok sa =>
    rw [hm] at h
    dsimp only at h
    match hl : txLength data.length sa with
    | Except.error e =>
      rw [hl] at h
      exact absurd h (by simp)
    | Except.ok sb =>
      rw [hl] at h
      dsimp only at h
      match hw : write1 data sb with
      | (some e, n, s3) =>
        rw [hw] at h
        exact absurd h (by simp)
      | (none, n, s3) =>
        rw [hw] at h
        dsimp only at h
        by_cases hn : n ≠ data.length
        · rw [if_pos hn] at h
          exact absurd h (by simp)
        · rw [if_neg hn] at h
          injection h with h1
          rw [not_not] at hn
          rw [← h1, write1_full_out data sb n s3 hw hn,
            txLength_ok_out data.length sa sb hl, txMagicHeader_ok_out s sa hm]

lemma txMagicHeader_wrote4 (rest : List WriteRes) (out : List Nat) :
    txMagicHeader { sched := WriteRes.wrote 4 :: rest, out := out } =
      Except.ok { sched := rest, out := out ++ magicHeader } := rfl

lemma txLength_wrote4 (len : Nat) (rest : List WriteRes) (out : List Nat) :
    txLength len { sched := WriteRes.wrote 4 :: rest, out := out } =
      Except.ok { sched := rest, out := out ++ putUint32LE len } := rfl

/-- C5 (confirmed): `txPb` writes the 4-byte magic marker, then the
4-byte little-endian length of the payload, then exactly the payload
bytes, in that order (conjuncts 1 and 2: with an unconstrained writer
the output is exactly that concatenation, and EVERY successful run
appends exactly that concatenation); a partial write at any of the
three stages yields the corresponding short-write error instead of
success (conjuncts 3-5). -/
theorem txPb_frame_layout :
    (∀ data out : List Nat, txPb data { sched := [], out := out } =
        Except.ok { sched := [],
                    out := out ++ magicHeader ++ putUint32LE data.length ++ data }) ∧
    (∀ data : List Nat, ∀ s s1 : TxState, txPb data s = Except.ok s1 →
        s1.out = s.out ++ magicHeader ++ putUint32LE data.length ++ data) ∧
    (∀ data out : List Nat, ∀ n : Nat, n < 4 →
        txPb data { sched := [WriteRes.wrote n], out := out } =
          Except.error FrameError.shortMagicWrite) ∧
    (∀ data out : List Nat, ∀ n : Nat, n < 4 →
        txPb data { sched := [WriteRes.wrote 4, WriteRes.wrote n], out := out } =
          Except.error FrameError.shortLengthWrite) ∧
    (∀ data out : List Nat, ∀ n : Nat, n < data.length →
        txPb data
            { sched := [WriteRes.wrote 4, WriteRes.wrote 4, WriteRes.wrote n], out := out } =
          Except.error FrameError.shortDataWrite) := by
  refine ⟨?_, txPb_ok_out, ?_, ?_, ?_⟩
  · intro data out
    rw [txPb, txMagicHeader, write1]
    dsimp only
    rw [if_neg (by decide)]
    dsimp only
    rw [txLength, write1]
    dsimp only
    rw [putUint32LE_length, if_neg (by decide)]
    dsimp only
    rw [write1]
    dsimp only
    rw [if_neg (by simp)]
  · intro data out n hn
    have hm : txMagicHeader { sched := [WriteRes.wrote n], out := out } =
        Except.error FrameError.shortMagicWrite := by
      rw [txMagicHeader, write1]
      dsimp only
      rw [if_pos (by rw [magicHeader_length]; omega)]
    rw [txPb, hm]
  · intro data out n hn
    rw [txPb, txMagicHeader_wrote4]
    dsimp only
    have hl : txLength data.length { sched := [WriteRes.wrote n], out := out ++ magicHeader } =
        Except.error FrameError.shortLengthWrite := by
      rw [txLength, write1]
      dsimp only
      rw [putUint32LE_length, if_pos (by omega)]
    rw [hl]
  · intro data out n hn
    rw [txPb, txMagicHeader_wrote4]
    dsimp only
    rw [txLength_wrote4]
    dsimp only
    rw [write1]
    dsimp only
    rw [if_pos (by omega)]

/-- Witness for `txPb_frame_layout`: with an unconstrained writer a
one-byte payload produces the expected 9 bytes on the wire, and a
3-byte first write yields the magic-header short-write error. -/
theorem txPb_frame_layout_witness :
    txPb [7] { sched := [], out := [] } =
      Except.ok { sched := [],
                  out := [] ++ magicHeader ++ putUint32LE (List.length [7]) ++ [7] } ∧
    (3 < 4 ∧ txPb [7] { sched := [WriteRes.wrote 3], out := [] } =
      Except.error FrameError.shortMagicWrite) :=
  ⟨txPb_frame_layout.1 [7] [],
   by decide, txPb_frame_layout.2.2.1 [7] [] 3 (by decide)⟩

/-- Block type enumeration (Plain / LatencyRequest / LatencyResponse). -/
inductive BlockType
  | plain
  | latencyRequest
  | latencyResponse
  deriving DecidableEq, Repr

/-- The atomic unit of test traffic.  `sequence` is a `uint32` in Go
(values below `2 ^ 32`); `timestamp` models the `time.Time` instant as
an integer; `data` is the payload; `hash` the carried digest bytes. -/
structure Block where
  sequence : Nat
  type : BlockType
  timestamp : Int
  data : List Nat
  hash : List Nat
  deriving DecidableEq, Repr

/-- Errors recorded by the protocol loops on the shared error channel.
`expectedSequence e g` mirrors the formatted message
"expected sequence [e] got sequence [g]" (protocol.go line 202). -/
inductive ProtoError
  | mismatchedHashes
  | expectedSequence (expected got : Nat)
  deriving DecidableEq, Repr

/-- `hex.EncodeToString`, one byte to two hex digits (here kept as the
two numeric nibbles; the digit-to-character step is a bijection on
nibbles and does not affect any equality). -/
def hexEncode : List Nat → List Nat
  | [] => []
  | b :: rest => b / 16 :: b % 16 :: hexEncode rest

lemma hexEncode_inj : ∀ {xs ys : List Nat}, hexEncode xs = hexEncode ys → xs = ys := by
  intro xs
  induction xs with
  | nil =>
    intro ys h
    cases ys with
    | nil => rfl
    | cons y ys => exact absurd h (by simp [hexEncode])
  | cons x xs ih =>
    intro ys h
    cases ys with
    | nil => exact absurd h (by simp [hexEncode])
    | cons y ys =>
      simp only [hexEncode, List.cons.injEq] at h
      obtain ⟨h1, h2, h3⟩ := h
      have hxy : x = y := by omega
      rw [hxy, ih h3]

/-- One event observed by the Verifier's `select` (protocol.go lines
184-227): a Block arriving on `rxBlocks`, the channel closing (a nil
receive), or the `time.After(RxTimeout)` timer firing first. -/
inductive VerifierEvent
  | block (b : Block)
  | chanClosed
  | timeout
  deriving DecidableEq, Repr

/-- Verifier-visible state: the expected-next counter `rxSequence`
(`uint32`, so arithmetic is mod `2 ^ 32`), the errors pushed to
`p.errors`, whether the verifier closed the shared connection, and —
as a history variable for specification only, with no effect on
control flow — the list of Blocks accepted so far. -/
structure VerifierState where
  rxSequence : Nat
  errors : List ProtoError
  peerClosed : Bool
  accepted : List Block
  deriving DecidableEq, Repr

/-- `protocol.verifier` (protocol.go lines 179-228), parameterised by
the digest function `H` (`sha512.Sum512` in Go), run over a list of
observed events.  Per Block: sequence check first; then the payload is
re-hashed and the hex encodings compared; a mismatch of either kind
pushes an error, closes the connection and returns.  On success the
counter advances by one (`uint32` increment).  A nil receive (closed
channel) returns normally.  The timeout arm logs and returns: the
error push and the connection close there are commented out in the
source (lines 219-224), so the state records neither. -/
def verifierLoop (H : List Nat → List Nat) : List VerifierEvent → VerifierState → VerifierState
  | [], s => s
  | VerifierEvent.block b :: rest, s =>
    if b.sequence = s.rxSequence then
      if hexEncode (H b.data) ≠ hexEncode b.hash then
        { s with errors := s.errors ++ [ProtoError.mismatchedHashes], peerClosed := true }
      else
        verifierLoop H rest
          { s with rxSequence := (s.rxSequence + 1) % 2 ^ 32, accepted := s.accepted ++ [b] }
    else
      { s with errors := s.errors ++ [ProtoError.expectedSequence s.rxSequence b.sequence],
               peerClosed := true }
  | VerifierEvent.chanClosed :: _, s => s
  | VerifierEvent.timeout :: _, s => s

/-- Initial verifier state: `rxSequence = 0` (protocol.go line 53),
nothing recorded. -/
def initVerifierState : VerifierState :=
  { rxSequence := 0, errors := [], peerClosed := false, accepted := [] }

/-- `protocol.run`'s outcome from the error channel (protocol.go lines
81-86): the first queued error if any, else success (`none`). -/
def runOutcome (errs : List ProtoError) : Option ProtoError := errs.head?

/-- The sequence bookkeeping the verifier maintains: accepted blocks
carry, in order, exactly the successive counter values, and the counter
equals the accepted count reduced mod `2 ^ 32`. -/
def seqInvariant (s : VerifierState) : Prop :=
  s.accepted.map Block.sequence = (List.range s.accepted.length).map (fun i => i % 2 ^ 32) ∧
  s.rxSequence = s.accepted.length % 2 ^ 32

lemma verifierLoop_invariant (H : List Nat → List Nat) (events : List VerifierEvent) :
    ∀ s : VerifierState, seqInvariant s → seqInvariant (verifierLoop H events s) := by
  induction events with
  | nil => intro s hs; exact hs
  | cons e rest ih =>
    intro s hs
    cases e with
    | block b =>
      rw [verifierLoop]
      by_cases hseq : b.sequence = s.rxSequence
      · rw [if_pos hseq]
        by_cases hh : hexEncode (H b.data) ≠ hexEncode b.hash
        · rw [if_pos hh]
          exact ⟨hs.1, hs.2⟩
        · rw [if_neg hh]
          apply ih
          constructor
          · show (s.accepted ++ [b]).map Block.sequence =
              (List.range ((s.accepted ++ [b]).length)).map (fun i => i % 2 ^ 32)
            rw [List.map_append, hs.1, List.length_append, List.length_singleton,
              List.range_succ, List.map_append]
            simp [hseq, hs.2]
          · show (s.rxSequence + 1) % 2 ^ 32 = (s.accepted ++ [b]).length % 2 ^ 32
            rw [List.length_append, List.length_singleton, hs.2, Nat.mod_add_mod]
      · rw [if_neg hseq]
        exact ⟨hs.1, hs.2⟩
    | chanClosed =>
      rw [verifierLoop]
      exact hs
    | timeout =>
      rw [verifierLoop]
      exact hs

/-- C2 (confirmed): starting from `rxSequence = 0`, a verifier run that
records no error has accepted Blocks whose sequence numbers are exactly
`0, 1, ..., N-1` in order (`N` the accepted count; stated for the
reachable regime `N ≤ 2 ^ 32`, the counter being a `uint32` — the
receive loop's `int32` counter keeps any real run far below this);
and a Block whose sequence differs from the expected-next counter makes
the verifier push a fatal sequence error, close the connection, and stop
without examining any later event. -/
theorem verifier_sequence_continuity (H : List Nat → List Nat) (events : List VerifierEvent)
    (hN : (verifierLoop H events initVerifierState).accepted.length ≤ 2 ^ 32)
    (hOK : (verifierLoop H events initVerifierState).errors = []) :
    ((verifierLoop H events initVerifierState).accepted.map Block.sequence =
        List.range (verifierLoop H events initVerifierState).accepted.length) ∧
    (∀ b : Block, ∀ rest : List VerifierEvent, ∀ s : VerifierState,
        b.sequence ≠ s.rxSequence →
        verifierLoop H (VerifierEvent.block b :: rest) s =
          { s with errors := s.errors ++ [ProtoError.expectedSequence s.rxSequence b.sequence],
                   peerClosed := true }) := by
  constructor
  · have hinv := verifierLoop_invariant H events initVerifierState
      ⟨by simp [initVerifierState], by simp [initVerifierState]⟩
    rw [hinv.1]
    conv_rhs => rw [← List.map_id (List.range (verifierLoop H events initVerifierState).accepted.length)]
    apply List.map_congr_left
    intro i hi
    simpa using Nat.mod_eq_of_lt (lt_of_lt_of_le (List.mem_range.mp hi) hN)
  · intro b rest s h
    rw [verifierLoop, if_neg h]

/-- Witness for `verifier_sequence_continuity`: two in-order empty
blocks are accepted with sequences `[0, 1] = range 2`. -/
theorem verifier_sequence_continuity_witness :
    ((verifierLoop (fun d => d)
        [VerifierEvent.block
           { sequence := 0, type := BlockType.plain, timestamp := 0, data := [], hash := [] },
         VerifierEvent.block
           { sequence := 1, type := BlockType.plain, timestamp := 0, data := [], hash := [] },
         VerifierEvent.chanClosed] initVerifierState).accepted.length ≤ 2 ^ 32) ∧
    ((verifierLoop (fun d => d)
        [VerifierEvent.block
           { sequence := 0, type := BlockType.plain, timestamp := 0, data := [], hash := [] },
         VerifierEvent.block
           { sequence := 1, type := BlockType.plain, timestamp := 0, data := [], hash := [] },
         VerifierEvent.chanClosed] initVerifierState).errors = []) ∧
    ((verifierLoop (fun d => d)
        [VerifierEvent.block
           { sequence := 0, type := BlockType.plain, timestamp := 0, data := [], hash := [] },
         VerifierEvent.block
           { sequence := 1, type := BlockType.plain, timestamp := 0, data := [], hash := [] },
         VerifierEvent.chanClosed] initVerifierState).accepted.map Block.sequence =
      List.range (verifierLoop (fun d => d)
        [VerifierEvent.block
           { sequence := 0, type := BlockType.plain, timestamp := 0, data := [], hash := [] },
         VerifierEvent.block
           { sequence := 1, type := BlockType.plain, timestamp := 0, data := [], hash := [] },
         VerifierEvent.chanClosed] initVerifierState).accepted.length) :=
  ⟨by decide, by decide, (verifier_sequence_continuity _ _ (by decide) (by decide)).1⟩

/-- C3 (confirmed): for a Block whose sequence matches, the verifier
re-hashes the payload and compares (hex encodings of) the digest with
the carried hash field; on mismatch it pushes an integrity error,
closes the shared connection and returns — later events are never
examined, the result being independent of them; on match it accepts
the Block and continues. -/
theorem verifier_hash_check (H : List Nat → List Nat) :
    (∀ b : Block, ∀ rest : List VerifierEvent, ∀ s : VerifierState,
        b.sequence = s.rxSequence → H b.data ≠ b.hash →
        verifierLoop H (VerifierEvent.block b :: rest) s =
          { s with errors := s.errors ++ [ProtoError.mismatchedHashes], peerClosed := true }) ∧
    (∀ b : Block, ∀ rest : List VerifierEvent, ∀ s : VerifierState,
        b.sequence = s.rxSequence → H b.data = b.hash →
        verifierLoop H (VerifierEvent.block b :: rest) s =
          verifierLoop H rest
            { s with rxSequence := (s.rxSequence + 1) % 2 ^ 32,
                     accepted := s.accepted ++ [b] }) := by
  constructor
  · intro b rest s hseq hhash
    rw [verifierLoop, if_pos hseq, if_pos fun hc => hhash (hexEncode_inj hc)]
  · intro b rest s hseq hhash
    rw [verifierLoop, if_pos hseq, if_neg (not_not_intro (by rw [hhash]))]

/-- Witness for `verifier_hash_check`: a first block whose carried hash
differs from the recomputed digest stops the verifier with the
integrity error and the connection closed, ignoring the rest. -/
theorem verifier_hash_check_witness :
    ({ sequence := 0, type := BlockType.plain, timestamp := 0, data := [1],
       hash := [] } : Block).sequence = initVerifierState.rxSequence ∧
    (fun d : List Nat => d) [1] ≠ ([] : List Nat) ∧
    verifierLoop (fun d => d)
        [VerifierEvent.block
           { sequence := 0, type := BlockType.plain, timestamp := 0, data := [1], hash := [] },
         VerifierEvent.chanClosed] initVerifierState =
      { initVerifierState with errors := [ProtoError.mismatchedHashes], peerClosed := true } :=
  ⟨by decide, by decide,
   (verifier_hash_check (fun d => d)).1
     { sequence := 0, type := BlockType.plain, timestamp := 0, data := [1], hash := [] }
     [VerifierEvent.chanClosed] initVerifierState (by decide) (by decide)⟩

/-- C1 (code bug): when the receive-idle timer fires before any Block
arrives, the verifier pushes NOTHING to the error channel and does not
close the connection (the pushes are commented out at protocol.go lines
219-224, it only logs); with no other error queued, `run` then reports
success (`none`) instead of the timeout error the spec requires. -/
theorem verifier_timeout_not_surfaced :
    (verifierLoop (fun d => d) [VerifierEvent.timeout] initVerifierState).errors = [] ∧
    (verifierLoop (fun d => d) [VerifierEvent.timeout] initVerifierState).peerClosed = false ∧
    runOutcome (verifierLoop (fun d => d) [VerifierEvent.timeout] initVerifierState).errors =
      none :=
  ⟨rfl, rfl, rfl⟩

/-- Result of the pacing step: how long the transmit loop sleeps before
sending, and the updated `lastSend`. -/
structure PacingOutcome where
  sleepFor : Int
  lastSend : Int
  deriving DecidableEq, Repr

/-- The pacing logic of `protocol.txer` (protocol.go lines 115-129),
entered when `TxPacing > 0`, with times as integer instants (ms).
`jitter` is the value sampled by `rand.Intn(TxMaxJitter)` (0 when
`TxMaxJitter = 0`); `nextSend = lastSend + (TxPacing + jitter)`; if
`nextSend` is after `now` the loop sleeps for the difference and sets
`lastSend := nextSend`, else it sends at once and sets
`lastSend := now`. -/
def pacingStep (txPacing jitter : Nat) (lastSend now : Int) : PacingOutcome :=
  if 0 < txPacing then
    if now < lastSend + ((txPacing : Int) + (jitter : Int)) then
      { sleepFor := lastSend + ((txPacing : Int) + (jitter : Int)) - now,
        lastSend := lastSend + ((txPacing : Int) + (jitter : Int)) }
    else
      { sleepFor := 0, lastSend := now }
  else
    { sleepFor := 0, lastSend := lastSend }

/-- C7 (confirmed): with pacing configured (`TxPacing > 0`) and jitter
sampled from `[0, TxMaxJitter)` (0 when jitter is disabled), the next
permissible instant is `lastSend + TxPacing + jitter`; if it lies in
the future the loop suspends exactly until it and advances `lastSend`
to it, otherwise it sends immediately and resets `lastSend` to `now`;
in both cases the actual send instant `now + sleepFor` equals the new
`lastSend`, so a loop running behind never compounds delay. -/
theorem txer_pacing (txPacing txMaxJitter jitter : Nat) (lastSend now : Int)
    (hp : 0 < txPacing)
    (hj : (0 < txMaxJitter → jitter < txMaxJitter) ∧ (txMaxJitter = 0 → jitter = 0)) :
    (now < lastSend + ((txPacing : Int) + (jitter : Int)) →
        pacingStep txPacing jitter lastSend now =
          { sleepFor := lastSend + ((txPacing : Int) + (jitter : Int)) - now,
            lastSend := lastSend + ((txPacing : Int) + (jitter : Int)) }) ∧
    (lastSend + ((txPacing : Int) + (jitter : Int)) ≤ now →
        pacingStep txPacing jitter lastSend now = { sleepFor := 0, lastSend := now }) ∧
    (now + (pacingStep txPacing jitter lastSend now).sleepFor =
        (pacingStep txPacing jitter lastSend now).lastSend) := by
  refine ⟨?_, ?_, ?_⟩
  · intro h
    rw [pacingStep, if_pos hp, if_pos h]
  · intro h
    rw [pacingStep, if_pos hp, if_neg (not_lt.mpr h)]
  · rw [pacingStep, if_pos hp]
    by_cases h : now < lastSend + ((txPacing : Int) + (jitter : Int))
    · rw [if_pos h]
      dsimp only
      omega
    · rw [if_neg h]
      dsimp only
      omega

/-- Witness for `txer_pacing`: pacing 10 ms, jitter 3 of max 5, last
send at 0, now 2: the loop sleeps 11 ms until instant 13. -/
theorem txer_pacing_witness :
    (0 < 10 ∧ ((0 < 5 → 3 < 5) ∧ (5 = 0 → 3 = 0))) ∧
    ((2 : Int) < 0 + ((10 : Nat) : Int) + ((3 : Nat) : Int) ∧
     pacingStep 10 3 0 2 = { sleepFor := 11, lastSend := 13 }) :=
  ⟨⟨by decide, by decide, by decide⟩,
   by decide,
   (txer_pacing 10 5 3 0 2 (by decide) ⟨by decide, by decide⟩).1 (by decide)⟩

/-- `protocol.rxer`'s handling of a received LatencyRequest (protocol.go
lines 162-168): a non-blocking send of the block's timestamp onto the
`latencies` channel (capacity 1024, protocol.go line 58); if the channel
is full the sample is dropped and a warning logged (the `Bool`
returned).  Other block types leave the queue untouched. -/
def latencyPush (b : Block) (latencies : List Int) : List Int × Bool :=
  if b.type = BlockType.latencyRequest then
    if latencies.length < 1024 then (latencies ++ [b.timestamp], false)
    else (latencies, true)
  else (latencies, false)

/-- `protocol.txer`'s latency-echo injection (protocol.go lines
102-113): for a Plain block, a non-blocking receive from `latencies`;
when a timestamp is pending the block is converted in place to
LatencyResponse with that timestamp; otherwise (or for non-Plain
blocks) the block passes unchanged.  Returns the block to send and the
remaining queue. -/
def txerLatencyInject (b : Block) (latencies : List Int) : Block × List Int :=
  if b.type = BlockType.plain then
    match latencies with
    | t :: rest => ({ b with type := BlockType.latencyResponse, timestamp := t }, rest)
    | [] => (b, latencies)
  else (b, latencies)

/-- C8 (confirmed): a LatencyRequest received with room in the queue
enqueues exactly its timestamp; a Plain block pulled with that
timestamp pending is converted in place to a LatencyResponse carrying
the request's timestamp, all other fields unchanged (echo fidelity);
with no timestamp pending a Plain block is sent unchanged. -/
theorem txer_latency_echo :
    (∀ r : Block, ∀ q : List Int, r.type = BlockType.latencyRequest → q.length < 1024 →
        latencyPush r q = (q ++ [r.timestamp], false)) ∧
    (∀ b r : Block, b.type = BlockType.plain → r.type = BlockType.latencyRequest →
        (txerLatencyInject b (latencyPush r []).1).1 =
          { b with type := BlockType.latencyResponse, timestamp := r.timestamp }) ∧
    (∀ b : Block, b.type = BlockType.plain → txerLatencyInject b [] = (b, [])) := by
  refine ⟨?_, ?_, ?_⟩
  · intro r q hr hq
    rw [latencyPush, if_pos hr, if_pos hq]
  · intro b r hb hr
    have hpush : latencyPush r [] = ([r.timestamp], false) := by
      rw [latencyPush, if_pos hr, if_pos (by simp)]
      simp
    rw [hpush]
    rw [txerLatencyInject.eq_def, if_pos hb]
  · intro b hb
    rw [txerLatencyInject.eq_def, if_pos hb]

/-- Witness for `txer_latency_echo`: a request stamped 42 turns the
next Plain block into a LatencyResponse stamped 42. -/
theorem txer_latency_echo_witness :
    ({ sequence := 5, type := BlockType.plain, timestamp := 0, data := [1],
       hash := [2] } : Block).type = BlockType.plain ∧
    ({ sequence := 9, type := BlockType.latencyRequest, timestamp := 42, data := [],
       hash := [] } : Block).type = BlockType.latencyRequest ∧
    (txerLatencyInject
        { sequence := 5, type := BlockType.plain, timestamp := 0, data := [1], hash := [2] }
        (latencyPush
          { sequence := 9, type := BlockType.latencyRequest, timestamp := 42, data := [],
            hash := [] } []).1).1 =
      { sequence := 5, type := BlockType.latencyResponse, timestamp := 42, data := [1],
        hash := [2] } :=
  ⟨by decide, by decide,
   txer_latency_echo.2.1
     { sequence := 5, type := BlockType.plain, timestamp := 0, data := [1], hash := [2] }
     { sequence := 9, type := BlockType.latencyRequest, timestamp := 42, data := [], hash := [] }
     (by decide) (by decide)⟩

/-- Observable effect of one `protocol.rxer` iteration (protocol.go
lines 154-173) given the result of reading one framed block:  on a read
error the loop records the error and stops; on a block it runs the
non-blocking latency push, increments the receive counter, and forwards
the block to the verifier. -/
structure RxerStep where
  readErr : Option FrameError
  warned : Bool
  latencies : List Int
  rxCountInc : Nat
  forwarded : Option Block
  deriving DecidableEq, Repr

/-- One iteration of `protocol.rxer` (protocol.go lines 154-173). -/
def rxerIteration (readResult : Except FrameError Block) (latencies : List Int) : RxerStep :=
  match readResult with
  | Except.error e =>
    { readErr := some e, warned := false, latencies := latencies, rxCountInc := 0,
      forwarded := none }
  | Except.ok b =>
    let pl := latencyPush b latencies
    { readErr := none, warned := pl.2, latencies := pl.1, rxCountInc := 1,
      forwarded := some b }

/-- C9 (confirmed): a LatencyRequest arriving with the 1024-slot
latency queue full is handled by dropping the timestamp (queue
unchanged) and warning; the iteration records no error, still counts
the block and still forwards it to the verifier — execution
continues. -/
theorem rxer_latency_queue_full (b : Block) (q : List Int)
    (hb : b.type = BlockType.latencyRequest) (hq : q.length = 1024) :
    rxerIteration (Except.ok b) q =
      { readErr := none, warned := true, latencies := q, rxCountInc := 1,
        forwarded := some b } := by
  rw [rxerIteration]
  have hpush : latencyPush b q = (q, true) := by
    rw [latencyPush, if_pos hb, if_neg (by omega)]
  simp [hpush]

/-- Witness for `rxer_latency_queue_full`: a full queue of 1024 zero
timestamps drops the new sample with a warning and no error. -/
theorem rxer_latency_queue_full_witness :
    ({ sequence := 0, type := BlockType.latencyRequest, timestamp := 7, data := [],
       hash := [] } : Block).type = BlockType.latencyRequest ∧
    (List.replicate 1024 (0 : Int)).length = 1024 ∧
    rxerIteration
        (Except.ok
          { sequence := 0, type := BlockType.latencyRequest, timestamp := 7, data := [],
            hash := [] })
        (List.replicate 1024 (0 : Int)) =
      { readErr := none, warned := true, latencies := List.replicate 1024 (0 : Int),
        rxCountInc := 1,
        forwarded := some
          { sequence := 0, type := BlockType.latencyRequest, timestamp := 7, data := [],
            hash := [] } } :=
  ⟨by decide, by rw [List.length_replicate],
   rxer_latency_queue_full
     { sequence := 0, type := BlockType.latencyRequest, timestamp := 7, data := [], hash := [] }
     (List.replicate 1024 (0 : Int)) (by decide) (by rw [List.length_replicate])⟩

end Loop3

namespace ZitiCmd

/-- The two boolean flags of the `create config router edge` command
(src/unnamed/part_000 lines 53-58). -/
structure CreateConfigRouterEdgeOptions where
  isPrivate : Bool
  wssEnabled : Bool
  deriving DecidableEq, Repr

/-- Failure modes of `CreateConfigRouterEdgeOptions.run`
(src/unnamed/part_000 lines 117-155). -/
inductive ConfigRunError
  | mutuallyExclusiveFlags
  | templateError
  | pathDoesNotExist
  | fileCreateError
  deriving DecidableEq, Repr

/-- Outcome of `run`: the error surfaced to the caller, if any, and the
configuration text written to the output destination, if any. -/
structure ConfigRunResult where
  err : Option ConfigRunError
  written : Option String
  deriving DecidableEq, Repr

/-- `CreateConfigRouterEdgeOptions.run` (src/unnamed/part_000 lines
117-155).  The mutual-exclusion check on `private` and `wss` comes
first (lines 119-122: a fatal log followed by an error return), before
the template is parsed or any output file is opened.  Template
parsing/rendering and the file system are external collaborators,
abstracted as the `render` argument: on the non-conflicting path `run`
surfaces `render`'s error or writes its text. -/
def edgeRouterRun (options : CreateConfigRouterEdgeOptions)
    (render : Except ConfigRunError String) : ConfigRunResult :=
  if options.isPrivate && options.wssEnabled then
    { err := some ConfigRunError.mutuallyExclusiveFlags, written := none }
  else
    match render with
    | Except.error e => { err := some e, written := none }
    | Except.ok content => { err := none, written := some content }

/-- C10 (confirmed): requesting both `private` and `wss` is rejected up
front — `run` reports the mutual-exclusion error and writes no
configuration output, whatever the template or file system would have
done. -/
theorem edgeRouterRun_mutually_exclusive (options : CreateConfigRouterEdgeOptions)
    (render : Except ConfigRunError String)
    (hp : options.isPrivate = true) (hw : options.wssEnabled = true) :
    edgeRouterRun options render =
      { err := some ConfigRunError.mutuallyExclusiveFlags, written := none } := by
  rw [edgeRouterRun.eq_def, if_pos (by rw [hp, hw]; rfl)]

/-- Witness for `edgeRouterRun_mutually_exclusive`: both flags set,
with a successfully rendering template, still yields the rejection and
no output. -/
theorem edgeRouterRun_mutually_exclusive_witness :
    ({ isPrivate := true, wssEnabled := true } : CreateConfigRouterEdgeOptions).isPrivate = true ∧
    ({ isPrivate := true, wssEnabled := true } : CreateConfigRouterEdgeOptions).wssEnabled = true ∧
    edgeRouterRun { isPrivate := true, wssEnabled := true } (Except.ok "config text") =
      { err := some ConfigRunError.mutuallyExclusiveFlags, written := none } :=
  ⟨rfl, rfl,
   edgeRouterRun_mutually_exclusive { isPrivate := true, wssEnabled := true }
     (Except.ok "config text") rfl rfl⟩

end ZitiCmd
